import Mathlib

/-!
Shallow embedding of `src/user/src/user_uart.rs` (UART driver core of
rCore-N's user library) and verification of the frozen claims about it.

Modelling conventions, used throughout:
* Machine integers (`usize`, `u8`, `u16`) become `Nat`; overflow does not
  occur on any path modelled here except where noted explicitly.
* The memory-mapped hardware registers are external collaborators.  Reads
  of the receive register are modelled by a list `hwRx : List Nat` of the
  bytes the hardware will deliver (in order): `try_recv` pops its head when
  the data-ready bit is set, and returns `none` once the list is empty.
  Successive reads of the interrupt-identification register are modelled by
  a list `pending : List IID` of cause codes; writes of configuration
  registers that the claims mention (FCR, divisor latch) are modelled as
  explicit write records, other register side effects are dropped.
* `VecDeque<u8>` and the `heapless::spsc` ring buffer both become a
  `List Nat` with the front as dequeue end; `enqueue`/`push_back` append at
  the back, so FIFO order is list order.  The spsc queue's capacity is kept
  as a parameter `cap` (the driver instantiates `N = 1000`).
* `spin::Mutex::lock()` is a lock acquisition that spins (can wait) under
  contention; `try_lock()` is the non-blocking attempt that fails
  immediately.  Lock acquisitions performed by `AsyncSerial`'s interrupt
  handler are recorded as `(LockId, LockMode)` events so that claims about
  which acquisitions can wait become statements about the event list.
* A Rust panic (out-of-bounds slice index) is modelled as `Option.none`.
-/

namespace UserUart

/-- `DEFAULT_TX_BUFFER_SIZE` from the source (line 19). -/
def DEFAULT_TX_BUFFER_SIZE : Nat := 1000

/-- `DEFAULT_RX_BUFFER_SIZE` from the source (line 20). -/
def DEFAULT_RX_BUFFER_SIZE : Nat := 1000

/-- `FIFO_DEPTH` from both board configurations (lines 26, 45). -/
def FIFO_DEPTH : Nat := 16

namespace QemuBoard

/-- `SERIAL_BASE_ADDRESS` of the `board_qemu` configuration (line 28). -/
def SERIAL_BASE_ADDRESS : Nat := 0x10002000

/-- `SERIAL_ADDRESS_STRIDE` of the `board_qemu` configuration (line 29). -/
def SERIAL_ADDRESS_STRIDE : Nat := 0x1000

/-- `irq_to_serial_id` of the `board_qemu` configuration (lines 30-38). -/
def irq_to_serial_id (irq : Nat) : Nat :=
  match irq with
  | 12 => 0
  | 13 => 1
  | 14 => 2
  | 15 => 3
  | _ => 0

/-- `get_base_addr_from_irq` (lines 60-62) instantiated for `board_qemu`. -/
def get_base_addr_from_irq (irq : Nat) : Nat :=
  SERIAL_BASE_ADDRESS + irq_to_serial_id irq * SERIAL_ADDRESS_STRIDE

end QemuBoard

namespace LrvBoard

/-- `SERIAL_BASE_ADDRESS` of the `board_lrv` configuration (line 47). -/
def SERIAL_BASE_ADDRESS : Nat := 0x60001000

/-- `SERIAL_ADDRESS_STRIDE` of the `board_lrv` configuration (line 48). -/
def SERIAL_ADDRESS_STRIDE : Nat := 0x1000

/-- `irq_to_serial_id` of the `board_lrv` configuration (lines 49-57). -/
def irq_to_serial_id (irq : Nat) : Nat :=
  match irq with
  | 4 => 0
  | 5 => 1
  | 6 => 2
  | 7 => 3
  | _ => 0

/-- `get_base_addr_from_irq` (lines 60-62) instantiated for `board_lrv`. -/
def get_base_addr_from_irq (irq : Nat) : Nat :=
  SERIAL_BASE_ADDRESS + irq_to_serial_id irq * SERIAL_ADDRESS_STRIDE

end LrvBoard

/-- The two divisor-latch registers written by `set_divisor`. -/
inductive DlReg where
  | dll
  | dlh
deriving DecidableEq

/-- `set_divisor` (lines 102-126, repeated verbatim for the other two
drivers at lines 343-367 and 515-539): computes
`divisor = clock / (16 * baud_rate)` with integer (floor) division and
writes the low byte `divisor & 0b1111_1111` to the divisor-latch-low
register, then `(divisor >> 8) & 0b1111_1111` to the divisor-latch-high
register.  The surrounding DLAB set/clear writes to LCR carry no data and
are omitted; the returned list records the two data writes in program
order. -/
def set_divisor (clock baud_rate : Nat) : List (DlReg × Nat) :=
  let divisor := clock / (16 * baud_rate)
  [(DlReg.dll, divisor &&& 0b11111111), (DlReg.dlh, (divisor >>> 8) &&& 0b11111111)]

/-- Receiver trigger levels of the FIFO-control register (`rt` field of the
external PAC crate), as selected by the three `hardware_init` bodies. -/
inductive RxTrigger where
  | one_character
  | quarter_full
  | half_full
  | two_less_than_full
deriving DecidableEq

/-- The value written to the FIFO-control register: FIFO enable bit, the
two FIFO-reset bits and the receiver trigger level. -/
structure FcrWrite where
  fifoe : Bool
  rfifor : Bool
  xfifor : Bool
  rt : RxTrigger
deriving DecidableEq

/-- The FCR value written by `BufferedSerial::hardware_init` (lines
181-190): `fifoe().clear_bit().rfifor().set_bit().xfifor().set_bit().rt().one_character()`.
Note that the source clears the FIFO-enable bit here, under the comment
saying the FIFO is being enabled. -/
def BufferedSerial.hardware_init_fcr : FcrWrite :=
  { fifoe := false, rfifor := true, xfifor := true, rt := RxTrigger.one_character }

/-- The FCR value written by `PollingSerial::hardware_init` (lines
400-409): `fifoe().set_bit().rfifor().set_bit().xfifor().set_bit().rt().two_less_than_full()`. -/
def PollingSerial.hardware_init_fcr : FcrWrite :=
  { fifoe := true, rfifor := true, xfifor := true, rt := RxTrigger.two_less_than_full }

/-- The FCR value written by `AsyncSerial::hardware_init` (lines 608-617):
`fifoe().set_bit().rfifor().set_bit().xfifor().set_bit().rt().half_full()`. -/
def AsyncSerial.hardware_init_fcr : FcrWrite :=
  { fifoe := true, rfifor := true, xfifor := true, rt := RxTrigger.half_full }

/-- Interrupt-identification cause codes (`IID_A` variants of the external
PAC crate), with the 16550 encoding used for `int_type as u8`. -/
inductive IID where
  | MODEM_STATUS
  | NO_INTERRUPT_PENDING
  | THR_EMPTY
  | RECEIVED_DATA_AVAILABLE
  | RECEIVER_LINE_STATUS
  | CHARACTER_TIMEOUT
deriving DecidableEq

/-- The `int_type as u8` numeric value of each cause (16550 IIR encoding,
from the external PAC crate). -/
def IID.id : IID → Nat
  | IID.MODEM_STATUS => 0
  | IID.NO_INTERRUPT_PENDING => 1
  | IID.THR_EMPTY => 2
  | IID.RECEIVED_DATA_AVAILABLE => 4
  | IID.RECEIVER_LINE_STATUS => 6
  | IID.CHARACTER_TIMEOUT => 12

/-- Modelled from the spec: the external trace sink (`push_trace` with the
`SERIAL_INTR_ENTER`/`SERIAL_INTR_EXIT` offsets, which live in
`crate::trace`, outside `src/`) receives (cause-id, enter/exit) events.
`enter c` models `push_trace(SERIAL_INTR_ENTER + c)` and `exit c` models
`push_trace(SERIAL_INTR_EXIT + c)`. -/
inductive TraceEvent where
  | enter (cause : Nat)
  | exit (cause : Nat)
deriving DecidableEq

/-- The bracketed trace a handler is expected to emit for a list of
processed causes: one enter and one exit event per occurrence, in order. -/
def bracketTrace : List IID → List TraceEvent
  | [] => []
  | c :: rest => TraceEvent.enter (IID.id c) :: TraceEvent.exit (IID.id c) :: bracketTrace rest

/-- The receive-drain loop shared by `BufferedSerial::interrupt_handler`
(lines 214-223) and `AsyncSerial::interrupt_handler` (lines 644-652):
`while let Some(ch) = self.try_recv() { if room { enqueue(ch) } else { self.disable_rdai(); break } }`.
`data` is the software rx queue, `hw` the bytes the hardware still holds,
`intr` the rx interrupt-enable flag and `cnt` the running tally of bytes
accepted.  A byte popped from `hw` when the queue is full is dropped (it
was already consumed from the receive register) and the loop disables the
rx interrupt and stops.  Returns (queue, hardware leftover, flag, tally). -/
def rxDrainLoop (cap : Nat) (data hw : List Nat) (intr : Bool) (cnt : Nat) :
    List Nat × List Nat × Bool × Nat :=
  match hw with
  | [] => (data, [], intr, cnt)
  | ch :: rest =>
    if data.length < cap then rxDrainLoop cap (data ++ [ch]) rest intr (cnt + 1)
    else (data, rest, false, cnt)

/-- The transmit-drain loop shared by `BufferedSerial::interrupt_handler`
(lines 228-236) and `AsyncSerial::interrupt_handler` (lines 670-678):
`for _ in 0..FIFO_DEPTH { if let Some(ch) = pop() { send(ch) } else { self.disable_threi(); break } }`.
`fuel` starts at `FIFO_DEPTH`; `data` is the software tx queue, `sent` the
bytes written to the transmit-holding register so far, `intr` the tx
interrupt-enable flag, `cnt` the tally.  The tx interrupt is disabled only
when a pop finds the queue empty; a drain that uses up all its fuel leaves
the flag untouched.  Returns (queue, sent bytes, flag, tally). -/
def txDrainLoop (fuel : Nat) (data sent : List Nat) (intr : Bool) (cnt : Nat) :
    List Nat × List Nat × Bool × Nat :=
  match fuel with
  | 0 => (data, sent, intr, cnt)
  | n + 1 =>
    match data with
    | ch :: rest => txDrainLoop n rest (sent ++ [ch]) intr (cnt + 1)
    | [] => ([], sent, false, cnt)

/-- Result type of the non-blocking byte API (`nb::Result` in the source):
success or would-block. -/
inductive NbResult where
  | ok
  | wouldBlock
deriving DecidableEq

/-- The software-visible state of `BufferedSerial` (lines 64-78).  The
`base_address` and the hardware registers behind it are external; the
interrupt-enable flags mirror the driver's cached booleans (the hardware
IER writes performed by `enable_rdai`/`disable_rdai`/`enable_threi`/
`disable_threi` are side effects on the external register block). -/
structure BufferedSerial where
  rx_buffer : List Nat
  tx_buffer : List Nat
  rx_count : Nat
  tx_count : Nat
  intr_count : Nat
  rx_intr_count : Nat
  tx_intr_count : Nat
  tx_fifo_count : Nat
  rx_intr_enabled : Bool
  tx_intr_enabled : Bool
deriving DecidableEq

/-- `BufferedSerial::new` (lines 81-96): empty queues, zero counters, both
interrupt flags false. -/
def BufferedSerial.new : BufferedSerial :=
  { rx_buffer := []
    tx_buffer := []
    rx_count := 0
    tx_count := 0
    intr_count := 0
    rx_intr_count := 0
    tx_intr_count := 0
    tx_fifo_count := 0
    rx_intr_enabled := false
    tx_intr_enabled := false }

/-- `BufferedSerial::enable_rdai` (lines 128-132), driver-state part. -/
def BufferedSerial.enable_rdai (s : BufferedSerial) : BufferedSerial :=
  { s with rx_intr_enabled := true }

/-- `BufferedSerial::enable_threi` (lines 140-143), driver-state part. -/
def BufferedSerial.enable_threi (s : BufferedSerial) : BufferedSerial :=
  { s with tx_intr_enabled := true }

/-- `BufferedSerial::try_write` (lines 276-287): if the tx queue holds
fewer than `DEFAULT_TX_BUFFER_SIZE` bytes, push the byte at the back and,
when the tx interrupt is currently disabled, enable it; otherwise fail
with would-block, leaving the state unchanged. -/
def BufferedSerial.try_write (s : BufferedSerial) (word : Nat) : BufferedSerial × NbResult :=
  if s.tx_buffer.length < DEFAULT_TX_BUFFER_SIZE then
    let s1 : BufferedSerial := { s with tx_buffer := s.tx_buffer ++ [word] }
    let s2 : BufferedSerial := if !s1.tx_intr_enabled then s1.enable_threi else s1
    (s2, NbResult.ok)
  else
    (s, NbResult.wouldBlock)

/-- `BufferedSerial::try_read` (lines 297-306): pop the front of the rx
queue if non-empty; otherwise re-enable the rx interrupt when it is
disabled and fail with would-block (`none`). -/
def BufferedSerial.try_read (s : BufferedSerial) : BufferedSerial × Option Nat :=
  match s.rx_buffer with
  | ch :: rest => ({ s with rx_buffer := rest }, some ch)
  | [] => (if !s.rx_intr_enabled then s.enable_rdai else s, none)

/-- One cause dispatch of `BufferedSerial::interrupt_handler` (lines
210-250): receive-data-available and character-timeout drain the hardware
into the rx queue (the capacity check at line 215 compares against
`DEFAULT_TX_BUFFER_SIZE`, exactly as the source does); tx-holding-empty
pops up to `FIFO_DEPTH` bytes into the transmit register; modem-status and
unrecognized causes only log.  Returns (state, hardware rx leftover, bytes
sent to the transmit register). -/
def BufferedSerial.dispatch (s : BufferedSerial) (hwRx : List Nat) (c : IID) :
    BufferedSerial × List Nat × List Nat :=
  match c with
  | IID.RECEIVED_DATA_AVAILABLE | IID.CHARACTER_TIMEOUT =>
    let s1 : BufferedSerial := { s with rx_intr_count := s.rx_intr_count + 1 }
    match rxDrainLoop DEFAULT_TX_BUFFER_SIZE s1.rx_buffer hwRx s1.rx_intr_enabled 0 with
    | (data, hwRest, intr, cnt) =>
      ({ s1 with rx_buffer := data, rx_intr_enabled := intr, rx_count := s1.rx_count + cnt },
       hwRest, [])
  | IID.THR_EMPTY =>
    let s1 : BufferedSerial := { s with tx_intr_count := s.tx_intr_count + 1 }
    match txDrainLoop FIFO_DEPTH s1.tx_buffer [] s1.tx_intr_enabled 0 with
    | (data, sent, intr, cnt) =>
      ({ s1 with tx_buffer := data, tx_intr_enabled := intr, tx_count := s1.tx_count + cnt },
       hwRx, sent)
  | _ => (s, hwRx, [])

/-- `BufferedSerial::interrupt_handler` (lines 197-253): read the
interrupt-identification register in a loop (`pending` lists the
successive readings); stop on the distinguished no-interrupt-pending value
(or when the register yields no recognizable cause, the list end); for
each other cause push an enter trace event, bump `intr_count`, dispatch,
and push an exit trace event.  Returns (state, hardware rx leftover, bytes
sent, trace). -/
def BufferedSerial.interrupt_handler (s : BufferedSerial) (hwRx : List Nat)
    (pending : List IID) : BufferedSerial × List Nat × List Nat × List TraceEvent :=
  match pending with
  | [] => (s, hwRx, [], [])
  | c :: rest =>
    if c = IID.NO_INTERRUPT_PENDING then (s, hwRx, [], [])
    else
      let s0 : BufferedSerial := { s with intr_count := s.intr_count + 1 }
      match BufferedSerial.dispatch s0 hwRx c with
      | (s1, hw1, sent1) =>
        match BufferedSerial.interrupt_handler s1 hw1 rest with
        | (s2, hw2, sent2, tr) =>
          (s2, hw2, sent1 ++ sent2,
           TraceEvent.enter (IID.id c) :: TraceEvent.exit (IID.id c) :: tr)

/-- `core::task::Poll` outcome of a future's poll. -/
inductive Poll where
  | ready
  | pending
deriving DecidableEq

/-- The drain loop of `SerialReadFuture::poll` (lines 762-771):
`while let Some(data) = self.driver.try_read() { if self.read_len < self.buf.len() { self.buf[len] = data; self.read_len += 1 } else { return Poll::Ready(()) } }`.
`rx` is the rx ring-buffer content visible to `try_read` (the task-side
`rx_con.try_lock()` is uncontended in the modelled regime, so `try_read`
is a plain dequeue), `buf` the caller's buffer and `read_len` the fill
mark.  Once the loop exhausts `rx` it falls through to the pending path.
Returns (rx leftover, buffer, read_len, poll outcome).  Note that the
ready branch is reached only by dequeuing one more byte after the buffer
is already full, and that byte is not stored anywhere. -/
def readPollLoop (rx buf : List Nat) (read_len : Nat) : List Nat × List Nat × Nat × Poll :=
  match rx with
  | [] => ([], buf, read_len, Poll.pending)
  | d :: rest =>
    if read_len < buf.length then readPollLoop rest (buf.set read_len d) (read_len + 1)
    else (rest, buf, read_len, Poll.ready)

/-- `SerialReadFuture::poll` (lines 760-779): run the drain loop; if it
did not return ready, re-enable the rx interrupt when it is disabled (the
flag is true on the pending path either way) and return pending.
Returns (rx leftover, buffer, read_len, rx interrupt flag, outcome). -/
def SerialReadFuture.poll (rx buf : List Nat) (read_len : Nat) (rxIntr : Bool) :
    List Nat × List Nat × Nat × Bool × Poll :=
  match readPollLoop rx buf read_len with
  | (rx1, buf1, len1, Poll.ready) => (rx1, buf1, len1, rxIntr, Poll.ready)
  | (rx1, buf1, len1, Poll.pending) => (rx1, buf1, len1, true, Poll.pending)

/-- The enqueue loop of `SerialWriteFuture::poll` (lines 794-801):
`while let Ok(()) = self.driver.try_write(self.buf[self.write_len]) { if self.write_len < self.buf.len() - 1 { self.write_len += 1 } else { return Poll::Ready(()) } }`.
The source indexes `buf` at `write_len`; we recurse on the unsent tail
`buf.drop write_len`, whose head is `buf[write_len]`, and
`write_len < buf.len() - 1` holds exactly when that tail has a second
element.  An empty tail means `write_len >= buf.len()`: the indexing
panics (out-of-bounds on a slice), modelled as `none`.  With the buffer
non-empty the tail never empties, since `write_len` stops at the last
index.  `tx` is the tx ring-buffer content (the task-side
`tx_pro.try_lock()` is uncontended in the modelled regime, so `try_write`
fails exactly when the ring is full).  Returns `none` for a panic, or
(tx ring content, unsent tail, outcome). -/
def writePollGo (cap : Nat) (tx unsent : List Nat) : Option (List Nat × List Nat × Poll) :=
  match unsent with
  | [] => none
  | b :: rest =>
    if tx.length < cap then
      match rest with
      | [] => some (tx ++ [b], [], Poll.ready)
      | _ :: _ => writePollGo cap (tx ++ [b]) rest
    else
      some (tx, b :: rest, Poll.pending)

/-- `SerialWriteFuture::poll` (lines 791-808): run the enqueue loop; when
it exits with the ring full, enable the tx interrupt if it is disabled
(the flag is true on the pending path either way) and return pending.
Returns `none` for a panic, or (tx ring content, unsent tail, tx interrupt
flag, outcome). -/
def SerialWriteFuture.poll (cap : Nat) (tx unsent : List Nat) (txIntr : Bool) :
    Option (List Nat × List Nat × Bool × Poll) :=
  match writePollGo cap tx unsent with
  | none => none
  | some (tx1, rem, Poll.ready) => some (tx1, rem, txIntr, Poll.ready)
  | some (tx1, rem, Poll.pending) => some (tx1, rem, true, Poll.pending)

/-- The six locks owned by `AsyncSerial` (lines 470-473, 481-482): the
producer and consumer ends of the two rings and the two waker slots. -/
inductive LockId where
  | rxPro
  | rxCon
  | txPro
  | txCon
  | readWaker
  | writeWaker
deriving DecidableEq

/-- How a lock is acquired: `blocking` is `spin::Mutex::lock()`, which
spins (waits) until the lock is free; `nonBlocking` is `try_lock()`, the
attempt that fails immediately under contention. -/
inductive LockMode where
  | blocking
  | nonBlocking
deriving DecidableEq

/-- The software-visible state of `AsyncSerial` (lines 468-483).  The two
`heapless::spsc` rings are each a list (front = consumer end) with their
capacity kept as a parameter; the waker slots hold `some ()` when a task
continuation is registered.  The atomic counters and flags become plain
fields, since each modelled step is one atomic handler run. -/
structure AsyncSerial where
  rxCap : Nat
  txCap : Nat
  rxData : List Nat
  txData : List Nat
  rx_count : Nat
  tx_count : Nat
  intr_count : Nat
  rx_intr_count : Nat
  tx_intr_count : Nat
  rx_intr_enabled : Bool
  tx_intr_enabled : Bool
  read_waker : Option Unit
  write_waker : Option Unit
deriving DecidableEq

/-- The receive branch of `AsyncSerial::interrupt_handler` (lines
639-664): bump `rx_intr_count`, acquire the rx producer end with a
blocking `self.rx_pro.lock()`, drain the hardware into the ring (the loop
of lines 644-652), add the tally to `rx_count`, then attempt the read
waker slot with the non-blocking `try_lock()`: on success take and wake
the registered continuation (clearing the slot); on contention skip and
log.  `readLockOk` says whether that non-blocking attempt succeeds.
Returns (state, hardware rx leftover, lock-acquisition events in program
order). -/
def AsyncSerial.dispatchRx (s : AsyncSerial) (hwRx : List Nat) (readLockOk : Bool) :
    AsyncSerial × List Nat × List (LockId × LockMode) :=
  let s1 : AsyncSerial := { s with rx_intr_count := s.rx_intr_count + 1 }
  match rxDrainLoop s1.rxCap s1.rxData hwRx s1.rx_intr_enabled 0 with
  | (data, hwRest, intr, cnt) =>
    let s2 : AsyncSerial :=
      { s1 with rxData := data, rx_intr_enabled := intr, rx_count := s1.rx_count + cnt }
    let s3 : AsyncSerial :=
      if readLockOk && s2.read_waker.isSome then { s2 with read_waker := none } else s2
    (s3, hwRest,
     [(LockId.rxPro, LockMode.blocking), (LockId.readWaker, LockMode.nonBlocking)])

/-- The transmit branch of `AsyncSerial::interrupt_handler` (lines
665-689): bump `tx_intr_count`, acquire the tx consumer end with a
blocking `self.tx_con.lock()`, pop up to `FIFO_DEPTH` bytes into the
transmit register (the loop of lines 670-678), add the tally to
`tx_count`, then attempt the write waker slot with the non-blocking
`try_lock()`, waking and clearing it on success.  Returns (state, bytes
sent, lock-acquisition events in program order). -/
def AsyncSerial.dispatchTx (s : AsyncSerial) (writeLockOk : Bool) :
    AsyncSerial × List Nat × List (LockId × LockMode) :=
  let s1 : AsyncSerial := { s with tx_intr_count := s.tx_intr_count + 1 }
  match txDrainLoop FIFO_DEPTH s1.txData [] s1.tx_intr_enabled 0 with
  | (data, sent, intr, cnt) =>
    let s2 : AsyncSerial :=
      { s1 with txData := data, tx_intr_enabled := intr, tx_count := s1.tx_count + cnt }
    let s3 : AsyncSerial :=
      if writeLockOk && s2.write_waker.isSome then { s2 with write_waker := none } else s2
    (s3, sent,
     [(LockId.txCon, LockMode.blocking), (LockId.writeWaker, LockMode.nonBlocking)])

/-- `AsyncSerial::interrupt_handler` (lines 624-705): the same
cause-dispatch loop as the buffered driver — read the
interrupt-identification register until it reports no interrupt pending,
bracketing each processed cause with enter/exit trace events — but with
the rx/tx transfers going through the locked ring-buffer ends.
`readLockOk`/`writeLockOk` say whether the non-blocking waker-slot
attempts succeed during this run.  Returns (state, hardware rx leftover,
trace, lock-acquisition events in program order). -/
def AsyncSerial.interrupt_handler (s : AsyncSerial) (hwRx : List Nat)
    (readLockOk writeLockOk : Bool) (pending : List IID) :
    AsyncSerial × List Nat × List TraceEvent × List (LockId × LockMode) :=
  match pending with
  | [] => (s, hwRx, [], [])
  | c :: rest =>
    if c = IID.NO_INTERRUPT_PENDING then (s, hwRx, [], [])
    else
      let s0 : AsyncSerial := { s with intr_count := s.intr_count + 1 }
      let step : AsyncSerial × List Nat × List (LockId × LockMode) :=
        match c with
        | IID.RECEIVED_DATA_AVAILABLE | IID.CHARACTER_TIMEOUT =>
          AsyncSerial.dispatchRx s0 hwRx readLockOk
        | IID.THR_EMPTY =>
          match AsyncSerial.dispatchTx s0 writeLockOk with
          | (s1, _sent, ev) => (s1, hwRx, ev)
        | _ => (s0, hwRx, [])
      match step with
      | (s1, hw1, ev1) =>
        match AsyncSerial.interrupt_handler s1 hw1 readLockOk writeLockOk rest with
        | (s2, hw2, tr, ev2) =>
          (s2, hw2,
           TraceEvent.enter (IID.id c) :: TraceEvent.exit (IID.id c) :: tr,
           ev1 ++ ev2)

/-- The lock-discipline actually used by `AsyncSerial::interrupt_handler`:
the rx producer end and the tx consumer end are acquired with the blocking
`lock()`, the waker slots with the non-blocking `try_lock()`, and the
task-side ends (`rx_con`, `tx_pro`) are never touched from the handler. -/
def interruptLockOk : LockId × LockMode → Bool
  | (LockId.rxPro, LockMode.blocking) => true
  | (LockId.txCon, LockMode.blocking) => true
  | (LockId.readWaker, LockMode.nonBlocking) => true
  | (LockId.writeWaker, LockMode.nonBlocking) => true
  | _ => false

/-- The tx half of the `InterruptFlags` invariant, in the direction the
code maintains: whenever the tx queue is non-empty, the tx interrupt is
enabled. -/
def txInv (s : BufferedSerial) : Prop := s.tx_buffer ≠ [] → s.tx_intr_enabled = true

/-- A concrete `AsyncSerial` state with capacity-4 rings, one byte queued
for transmit, both interrupts enabled and both waker slots occupied. -/
def exAsyncC1 : AsyncSerial :=
  { rxCap := 4
    txCap := 4
    rxData := []
    txData := [9]
    rx_count := 0
    tx_count := 0
    intr_count := 0
    rx_intr_count := 0
    tx_intr_count := 0
    rx_intr_enabled := true
    tx_intr_enabled := true
    read_waker := some ()
    write_waker := some () }

/-- A concrete `AsyncSerial` state with an empty capacity-2 rx ring. -/
def exAsyncC3 : AsyncSerial :=
  { rxCap := 2
    txCap := 4
    rxData := []
    txData := []
    rx_count := 0
    tx_count := 0
    intr_count := 0
    rx_intr_count := 0
    tx_intr_count := 0
    rx_intr_enabled := true
    tx_intr_enabled := false
    read_waker := some ()
    write_waker := none }

/-- A concrete `AsyncSerial` state with empty capacity-8 rings and one
queued tx byte. -/
def exAsyncC8 : AsyncSerial :=
  { rxCap := 8
    txCap := 8
    rxData := []
    txData := [3]
    rx_count := 0
    tx_count := 0
    intr_count := 0
    rx_intr_count := 0
    tx_intr_count := 0
    rx_intr_enabled := true
    tx_intr_enabled := true
    read_waker := none
    write_waker := none }

/-- A concrete `BufferedSerial` state holding exactly `FIFO_DEPTH` (16)
bytes in the tx queue, with both interrupt flags true, so that both halves
of the claimed iff invariant hold before the interrupt handler runs. -/
def exBufC4 : BufferedSerial :=
  { rx_buffer := []
    tx_buffer := [1, 2, 3, 4, 5, 6, 7, 8, 9, 10, 11, 12, 13, 14, 15, 16]
    rx_count := 0
    tx_count := 0
    intr_count := 0
    rx_intr_count := 0
    tx_intr_count := 0
    tx_fifo_count := 0
    rx_intr_enabled := true
    tx_intr_enabled := true }

/-! ## Helper lemmas -/

/-- Masking with `0b1111_1111` is reduction modulo 256. -/
theorem land_255_eq_mod (x : Nat) : x &&& 0b11111111 = x % 256 := by
  have h := Nat.and_pow_two_sub_one_eq_mod x 8
  norm_num at h
  exact h

/-- Shifting right by 8 is division by 256. -/
theorem shiftRight_8_eq_div (x : Nat) : x >>> 8 = x / 256 := by
  rw [Nat.shiftRight_eq_div_pow]

/-- When the hardware holds one byte more than the rx queue has room for,
the drain loop fills the queue to capacity in arrival order, consumes the
extra byte, disables the rx interrupt and tallies the accepted bytes. -/
theorem rxDrainLoop_full (cap : Nat) : ∀ (hw data : List Nat) (intr : Bool) (cnt : Nat),
    data.length ≤ cap → data.length + hw.length = cap + 1 →
    rxDrainLoop cap data hw intr cnt =
      (data ++ List.take (cap - data.length) hw, [], false, cnt + (cap - data.length)) := by
  intro hw
  induction hw with
  | nil =>
    intro data intr cnt h1 h2
    simp only [List.length_nil, Nat.add_zero] at h2
    omega
  | cons ch rest ih =>
    intro data intr cnt h1 h2
    simp only [List.length_cons] at h2
    rw [rxDrainLoop]
    by_cases hlt : data.length < cap
    · rw [if_pos hlt]
      rw [ih (data ++ [ch]) intr (cnt + 1) (by simp; omega) (by simp; omega)]
      have hk : cap - data.length = (cap - (data.length + 1)) + 1 := by omega
      rw [hk, List.take_succ_cons]
      simp only [List.length_append, List.length_singleton, List.append_assoc,
        List.singleton_append, Prod.mk.injEq]
      refine ⟨?_, ?_, ?_, ?_⟩ <;> first | trivial | omega
    · rw [if_neg hlt]
      have hdl : data.length = cap := by omega
      have hrest : rest = [] := by
        have : rest.length = 0 := by omega
        exact List.eq_nil_of_length_eq_zero this
      simp [hdl, hrest]

/-- The tx drain loop preserves the direction of the flag invariant that
the code maintains: if the flag covers a non-empty queue on entry, it
covers a non-empty queue on exit. -/
theorem txDrainLoop_inv (fuel : Nat) : ∀ (data sent : List Nat) (intr : Bool) (cnt : Nat),
    (data ≠ [] → intr = true) →
    ((txDrainLoop fuel data sent intr cnt).1 ≠ [] →
      (txDrainLoop fuel data sent intr cnt).2.2.1 = true) := by
  induction fuel with
  | zero =>
    intro data sent intr cnt h
    simpa [txDrainLoop] using h
  | succ n ih =>
    intro data sent intr cnt h
    cases data with
    | nil => simp [txDrainLoop]
    | cons ch rest =>
      rw [txDrainLoop]
      exact ih rest (sent ++ [ch]) intr (cnt + 1) (fun _ => h (by simp))

/-- `BufferedSerial::dispatch` never changes `intr_count`: the handler loop
alone increments it. -/
theorem dispatch_intr_count (s : BufferedSerial) (hwRx : List Nat) (c : IID) :
    (BufferedSerial.dispatch s hwRx c).1.intr_count = s.intr_count := by
  cases c with
  | RECEIVED_DATA_AVAILABLE =>
    rcases hdr : rxDrainLoop DEFAULT_TX_BUFFER_SIZE s.rx_buffer hwRx s.rx_intr_enabled 0 with
      ⟨a, b, i, n⟩
    simp [BufferedSerial.dispatch, hdr]
  | CHARACTER_TIMEOUT =>
    rcases hdr : rxDrainLoop DEFAULT_TX_BUFFER_SIZE s.rx_buffer hwRx s.rx_intr_enabled 0 with
      ⟨a, b, i, n⟩
    simp [BufferedSerial.dispatch, hdr]
  | THR_EMPTY =>
    rcases hdr : txDrainLoop FIFO_DEPTH s.tx_buffer [] s.tx_intr_enabled 0 with ⟨a, b, i, n⟩
    simp [BufferedSerial.dispatch, hdr]
  | MODEM_STATUS => simp [BufferedSerial.dispatch]
  | NO_INTERRUPT_PENDING => simp [BufferedSerial.dispatch]
  | RECEIVER_LINE_STATUS => simp [BufferedSerial.dispatch]

/-- `BufferedSerial::dispatch` preserves the tx flag invariant. -/
theorem dispatch_txInv (s : BufferedSerial) (hwRx : List Nat) (c : IID) (h : txInv s) :
    txInv (BufferedSerial.dispatch s hwRx c).1 := by
  cases c with
  | RECEIVED_DATA_AVAILABLE =>
    rcases hdr : rxDrainLoop DEFAULT_TX_BUFFER_SIZE s.rx_buffer hwRx s.rx_intr_enabled 0 with
      ⟨a, b, i, n⟩
    simp only [txInv] at h ⊢
    simp [BufferedSerial.dispatch, hdr]
    exact h
  | CHARACTER_TIMEOUT =>
    rcases hdr : rxDrainLoop DEFAULT_TX_BUFFER_SIZE s.rx_buffer hwRx s.rx_intr_enabled 0 with
      ⟨a, b, i, n⟩
    simp only [txInv] at h ⊢
    simp [BufferedSerial.dispatch, hdr]
    exact h
  | THR_EMPTY =>
    rcases hdr : txDrainLoop FIFO_DEPTH s.tx_buffer [] s.tx_intr_enabled 0 with ⟨a, b, i, n⟩
    have hdi := txDrainLoop_inv FIFO_DEPTH s.tx_buffer [] s.tx_intr_enabled 0 h
    rw [hdr] at hdi
    simp only [txInv] at h ⊢
    simp [BufferedSerial.dispatch, hdr]
    exact hdi
  | MODEM_STATUS => simpa [BufferedSerial.dispatch, txInv] using h
  | NO_INTERRUPT_PENDING => simpa [BufferedSerial.dispatch, txInv] using h
  | RECEIVER_LINE_STATUS => simpa [BufferedSerial.dispatch, txInv] using h

/-- `BufferedSerial::interrupt_handler` preserves the tx flag invariant. -/
theorem handler_txInv (pending : List IID) : ∀ (s : BufferedSerial) (hwRx : List Nat),
    txInv s → txInv (BufferedSerial.interrupt_handler s hwRx pending).1 := by
  induction pending with
  | nil =>
    intro s hwRx h
    simpa [BufferedSerial.interrupt_handler] using h
  | cons c rest ih =>
    intro s hwRx h
    rw [BufferedSerial.interrupt_handler]
    by_cases hc : c = IID.NO_INTERRUPT_PENDING
    · simpa [hc] using h
    · rw [if_neg hc]
      rcases hd : BufferedSerial.dispatch { s with intr_count := s.intr_count + 1 } hwRx c with
        ⟨s1, hw1, sent1⟩
      rcases hr : BufferedSerial.interrupt_handler s1 hw1 rest with ⟨s2, hw2, sent2, tr⟩
      have h0 : txInv ({ s with intr_count := s.intr_count + 1 } : BufferedSerial) := h
      have h1 : txInv s1 := by
        have := dispatch_txInv { s with intr_count := s.intr_count + 1 } hwRx c h0
        rwa [hd] at this
      have h2 : txInv s2 := by
        have := ih s1 hw1 h1
        rwa [hr] at this
      simpa [hd, hr] using h2

/-- `BufferedSerial::try_write` preserves the tx flag invariant. -/
theorem try_write_txInv (s : BufferedSerial) (w : Nat) (h : txInv s) :
    txInv (BufferedSerial.try_write s w).1 := by
  unfold BufferedSerial.try_write
  split
  · simp only [txInv, BufferedSerial.enable_threi]
    split
    · simp
    · simp_all [txInv]
  · simpa [txInv] using h

/-- `BufferedSerial::try_read` preserves the tx flag invariant. -/
theorem try_read_txInv (s : BufferedSerial) (h : txInv s) :
    txInv (BufferedSerial.try_read s).1 := by
  unfold BufferedSerial.try_read
  cases hrb : s.rx_buffer with
  | cons ch rest => simpa [txInv] using h
  | nil =>
    by_cases hb : s.rx_intr_enabled = true
    · simpa [hb, txInv] using h
    · simpa [hb, txInv, BufferedSerial.enable_rdai] using h

/-- The trace and `intr_count` behaviour of `BufferedSerial`'s handler on a
pending sequence that ends in no-interrupt-pending. -/
theorem bufHandler_trace (causes : List IID) : ∀ (s : BufferedSerial) (hwRx : List Nat),
    IID.NO_INTERRUPT_PENDING ∉ causes →
    (BufferedSerial.interrupt_handler s hwRx
        (causes ++ [IID.NO_INTERRUPT_PENDING])).2.2.2 = bracketTrace causes ∧
    (BufferedSerial.interrupt_handler s hwRx
        (causes ++ [IID.NO_INTERRUPT_PENDING])).1.intr_count = s.intr_count + causes.length := by
  induction causes with
  | nil =>
    intro s hwRx _
    simp [BufferedSerial.interrupt_handler, bracketTrace]
  | cons c rest ih =>
    intro s hwRx h
    have hc : c ≠ IID.NO_INTERRUPT_PENDING := fun e => h (by simp [e])
    have hrest : IID.NO_INTERRUPT_PENDING ∉ rest := fun hm => h (List.mem_cons_of_mem _ hm)
    rw [List.cons_append, BufferedSerial.interrupt_handler, if_neg hc]
    rcases hd : BufferedSerial.dispatch { s with intr_count := s.intr_count + 1 } hwRx c with
      ⟨s1, hw1, sent1⟩
    rcases hr : BufferedSerial.interrupt_handler s1 hw1 (rest ++ [IID.NO_INTERRUPT_PENDING]) with
      ⟨s2, hw2, sent2, tr⟩
    have hih := ih s1 hw1 hrest
    rw [hr] at hih
    have hih1 : tr = bracketTrace rest := hih.1
    have hih2 : s2.intr_count = s1.intr_count + rest.length := hih.2
    have hic : s1.intr_count = s.intr_count + 1 := by
      have := dispatch_intr_count { s with intr_count := s.intr_count + 1 } hwRx c
      rw [hd] at this
      simpa using this
    simp only [hd, hr]
    constructor
    · simp [bracketTrace, hih1]
    · simp only [List.length_cons]
      omega

/-- The receive branch of the async handler performs exactly one blocking
acquisition of the rx producer end followed by one non-blocking attempt on
the read waker slot. -/
theorem dispatchRx_events (s : AsyncSerial) (hwRx : List Nat) (rOk : Bool) :
    (AsyncSerial.dispatchRx s hwRx rOk).2.2 =
      [(LockId.rxPro, LockMode.blocking), (LockId.readWaker, LockMode.nonBlocking)] := by
  rcases hdr : rxDrainLoop s.rxCap s.rxData hwRx s.rx_intr_enabled 0 with ⟨a, b, i, n⟩
  simp [AsyncSerial.dispatchRx, hdr]

/-- The transmit branch of the async handler performs exactly one blocking
acquisition of the tx consumer end followed by one non-blocking attempt on
the write waker slot. -/
theorem dispatchTx_events (s : AsyncSerial) (wOk : Bool) :
    (AsyncSerial.dispatchTx s wOk).2.2 =
      [(LockId.txCon, LockMode.blocking), (LockId.writeWaker, LockMode.nonBlocking)] := by
  rcases hdr : txDrainLoop FIFO_DEPTH s.txData [] s.tx_intr_enabled 0 with ⟨a, b, i, n⟩
  simp [AsyncSerial.dispatchTx, hdr]

/-- `AsyncSerial::dispatchRx` never changes `intr_count`. -/
theorem dispatchRx_intr_count (s : AsyncSerial) (hwRx : List Nat) (rOk : Bool) :
    (AsyncSerial.dispatchRx s hwRx rOk).1.intr_count = s.intr_count := by
  rcases hdr : rxDrainLoop s.rxCap s.rxData hwRx s.rx_intr_enabled 0 with ⟨a, b, i, n⟩
  simp only [AsyncSerial.dispatchRx]
  simp [hdr]
  split <;> simp

/-- `AsyncSerial::dispatchTx` never changes `intr_count`. -/
theorem dispatchTx_intr_count (s : AsyncSerial) (wOk : Bool) :
    (AsyncSerial.dispatchTx s wOk).1.intr_count = s.intr_count := by
  rcases hdr : txDrainLoop FIFO_DEPTH s.txData [] s.tx_intr_enabled 0 with ⟨a, b, i, n⟩
  simp only [AsyncSerial.dispatchTx]
  simp [hdr]
  split <;> simp

/-- Every lock acquisition performed during a run of
`AsyncSerial::interrupt_handler` follows the discipline the source
actually implements: blocking `lock()` on the rx producer and tx consumer
ends, non-blocking `try_lock()` on the waker slots, and no touch of the
task-side ends. -/
theorem asyncHandler_events_ok (pending : List IID) :
    ∀ (s : AsyncSerial) (hwRx : List Nat) (rOk wOk : Bool),
    ((AsyncSerial.interrupt_handler s hwRx rOk wOk pending).2.2.2).all interruptLockOk = true := by
  induction pending with
  | nil =>
    intro s hwRx rOk wOk
    simp [AsyncSerial.interrupt_handler]
  | cons c rest ih =>
    intro s hwRx rOk wOk
    rw [AsyncSerial.interrupt_handler]
    by_cases hc : c = IID.NO_INTERRUPT_PENDING
    · simp [hc]
    · rw [if_neg hc]
      cases c with
      | RECEIVED_DATA_AVAILABLE =>
        rcases hd : AsyncSerial.dispatchRx { s with intr_count := s.intr_count + 1 } hwRx rOk with
          ⟨s1, hw1, ev1⟩
        have hev : ev1 = [(LockId.rxPro, LockMode.blocking),
            (LockId.readWaker, LockMode.nonBlocking)] := by
          have := dispatchRx_events { s with intr_count := s.intr_count + 1 } hwRx rOk
          rw [hd] at this
          exact this
        rcases hr : AsyncSerial.interrupt_handler s1 hw1 rOk wOk rest with ⟨s2, hw2, tr, ev2⟩
        have hih : ev2.all interruptLockOk = true := by
          have := ih s1 hw1 rOk wOk
          rw [hr] at this
          exact this
        simp [hd, hr, hev, List.all_append, hih, interruptLockOk]
      | CHARACTER_TIMEOUT =>
        rcases hd : AsyncSerial.dispatchRx { s with intr_count := s.intr_count + 1 } hwRx rOk with
          ⟨s1, hw1, ev1⟩
        have hev : ev1 = [(LockId.rxPro, LockMode.blocking),
            (LockId.readWaker, LockMode.nonBlocking)] := by
          have := dispatchRx_events { s with intr_count := s.intr_count + 1 } hwRx rOk
          rw [hd] at this
          exact this
        rcases hr : AsyncSerial.interrupt_handler s1 hw1 rOk wOk rest with ⟨s2, hw2, tr, ev2⟩
        have hih : ev2.all interruptLockOk = true := by
          have := ih s1 hw1 rOk wOk
          rw [hr] at this
          exact this
        simp [hd, hr, hev, List.all_append, hih, interruptLockOk]
      | THR_EMPTY =>
        rcases hd : AsyncSerial.dispatchTx { s with intr_count := s.intr_count + 1 } wOk with
          ⟨s1, sent1, ev1⟩
        have hev : ev1 = [(LockId.txCon, LockMode.blocking),
            (LockId.writeWaker, LockMode.nonBlocking)] := by
          have := dispatchTx_events { s with intr_count := s.intr_count + 1 } wOk
          rw [hd] at this
          exact this
        rcases hr : AsyncSerial.interrupt_handler s1 hwRx rOk wOk rest with ⟨s2, hw2, tr, ev2⟩
        have hih : ev2.all interruptLockOk = true := by
          have := ih s1 hwRx rOk wOk
          rw [hr] at this
          exact this
        simp [hd, hr, hev, List.all_append, hih, interruptLockOk]
      | MODEM_STATUS =>
        rcases hr : AsyncSerial.interrupt_handler { s with intr_count := s.intr_count + 1 }
            hwRx rOk wOk rest with ⟨s2, hw2, tr, ev2⟩
        have hih : ev2.all interruptLockOk = true := by
          have := ih { s with intr_count := s.intr_count + 1 } hwRx rOk wOk
          rw [hr] at this
          exact this
        simp [hr, hih]
      | NO_INTERRUPT_PENDING => exact absurd rfl hc
      | RECEIVER_LINE_STATUS =>
        rcases hr : AsyncSerial.interrupt_handler { s with intr_count := s.intr_count + 1 }
            hwRx rOk wOk rest with ⟨s2, hw2, tr, ev2⟩
        have hih : ev2.all interruptLockOk = true := by
          have := ih { s with intr_count := s.intr_count + 1 } hwRx rOk wOk
          rw [hr] at this
          exact this
        simp [hr, hih]

/-- The trace and `intr_count` behaviour of `AsyncSerial`'s handler on a
pending sequence that ends in no-interrupt-pending. -/
theorem asyncHandler_trace (causes : List IID) :
    ∀ (s : AsyncSerial) (hwRx : List Nat) (rOk wOk : Bool),
    IID.NO_INTERRUPT_PENDING ∉ causes →
    (AsyncSerial.interrupt_handler s hwRx rOk wOk
        (causes ++ [IID.NO_INTERRUPT_PENDING])).2.2.1 = bracketTrace causes ∧
    (AsyncSerial.interrupt_handler s hwRx rOk wOk
        (causes ++ [IID.NO_INTERRUPT_PENDING])).1.intr_count = s.intr_count + causes.length := by
  induction causes with
  | nil =>
    intro s hwRx rOk wOk _
    simp [AsyncSerial.interrupt_handler, bracketTrace]
  | cons c rest ih =>
    intro s hwRx rOk wOk h
    have hc : c ≠ IID.NO_INTERRUPT_PENDING := fun e => h (by simp [e])
    have hrest : IID.NO_INTERRUPT_PENDING ∉ rest := fun hm => h (List.mem_cons_of_mem _ hm)
    rw [List.cons_append, AsyncSerial.interrupt_handler, if_neg hc]
    cases c with
    | RECEIVED_DATA_AVAILABLE =>
      rcases hd : AsyncSerial.dispatchRx { s with intr_count := s.intr_count + 1 } hwRx rOk with
        ⟨s1, hw1, ev1⟩
      rcases hr : AsyncSerial.interrupt_handler s1 hw1 rOk wOk
          (rest ++ [IID.NO_INTERRUPT_PENDING]) with ⟨s2, hw2, tr, ev2⟩
      have hih := ih s1 hw1 rOk wOk hrest
      rw [hr] at hih
      have hih1 : tr = bracketTrace rest := hih.1
      have hih2 : s2.intr_count = s1.intr_count + rest.length := hih.2
      have hic : s1.intr_count = s.intr_count + 1 := by
        have := dispatchRx_intr_count { s with intr_count := s.intr_count + 1 } hwRx rOk
        rw [hd] at this
        simpa using this
      simp only [hd, hr]
      constructor
      · simp [bracketTrace, hih1]
      · simp only [List.length_cons]
        omega
    | CHARACTER_TIMEOUT =>
      rcases hd : AsyncSerial.dispatchRx { s with intr_count := s.intr_count + 1 } hwRx rOk with
        ⟨s1, hw1, ev1⟩
      rcases hr : AsyncSerial.interrupt_handler s1 hw1 rOk wOk
          (rest ++ [IID.NO_INTERRUPT_PENDING]) with ⟨s2, hw2, tr, ev2⟩
      have hih := ih s1 hw1 rOk wOk hrest
      rw [hr] at hih
      have hih1 : tr = bracketTrace rest := hih.1
      have hih2 : s2.intr_count = s1.intr_count + rest.length := hih.2
      have hic : s1.intr_count = s.intr_count + 1 := by
        have := dispatchRx_intr_count { s with intr_count := s.intr_count + 1 } hwRx rOk
        rw [hd] at this
        simpa using this
      simp only [hd, hr]
      constructor
      · simp [bracketTrace, hih1]
      · simp only [List.length_cons]
        omega
    | THR_EMPTY =>
      rcases hd : AsyncSerial.dispatchTx { s with intr_count := s.intr_count + 1 } wOk with
        ⟨s1, sent1, ev1⟩
      rcases hr : AsyncSerial.interrupt_handler s1 hwRx rOk wOk
          (rest ++ [IID.NO_INTERRUPT_PENDING]) with ⟨s2, hw2, tr, ev2⟩
      have hih := ih s1 hwRx rOk wOk hrest
      rw [hr] at hih
      have hih1 : tr = bracketTrace rest := hih.1
      have hih2 : s2.intr_count = s1.intr_count + rest.length := hih.2
      have hic : s1.intr_count = s.intr_count + 1 := by
        have := dispatchTx_intr_count { s with intr_count := s.intr_count + 1 } wOk
        rw [hd] at this
        simpa using this
      simp only [hd, hr]
      constructor
      · simp [bracketTrace, hih1]
      · simp only [List.length_cons]
        omega
    | MODEM_STATUS =>
      rcases hr : AsyncSerial.interrupt_handler { s with intr_count := s.intr_count + 1 }
          hwRx rOk wOk (rest ++ [IID.NO_INTERRUPT_PENDING]) with ⟨s2, hw2, tr, ev2⟩
      have hih := ih { s with intr_count := s.intr_count + 1 } hwRx rOk wOk hrest
      rw [hr] at hih
      have hih1 : tr = bracketTrace rest := hih.1
      have hih2 : s2.intr_count = s.intr_count + 1 + rest.length := hih.2
      simp only [hr]
      constructor
      · simp [bracketTrace, hih1]
      · simp only [List.length_cons]
        omega
    | NO_INTERRUPT_PENDING => exact absurd rfl hc
    | RECEIVER_LINE_STATUS =>
      rcases hr : AsyncSerial.interrupt_handler { s with intr_count := s.intr_count + 1 }
          hwRx rOk wOk (rest ++ [IID.NO_INTERRUPT_PENDING]) with ⟨s2, hw2, tr, ev2⟩
      have hih := ih { s with intr_count := s.intr_count + 1 } hwRx rOk wOk hrest
      rw [hr] at hih
      have hih1 : tr = bracketTrace rest := hih.1
      have hih2 : s2.intr_count = s.intr_count + 1 + rest.length := hih.2
      simp only [hr]
      constructor
      · simp [bracketTrace, hih1]
      · simp only [List.length_cons]
        omega

/-- The receive branch of the async handler, given an empty rx ring and
one byte more than its capacity available in hardware, fills the ring with
the first `rxCap` bytes in order, consumes all the hardware bytes,
disables the rx interrupt and counts `rxCap` accepted bytes. -/
theorem dispatchRx_full (s : AsyncSerial) (hwRx : List Nat) (rOk : Bool)
    (hdata : s.rxData = []) (hlen : hwRx.length = s.rxCap + 1) :
    (AsyncSerial.dispatchRx s hwRx rOk).1.rxData = List.take s.rxCap hwRx ∧
    (AsyncSerial.dispatchRx s hwRx rOk).1.rx_intr_enabled = false ∧
    (AsyncSerial.dispatchRx s hwRx rOk).2.1 = [] ∧
    (AsyncSerial.dispatchRx s hwRx rOk).1.rx_count = s.rx_count + s.rxCap := by
  have hdr := rxDrainLoop_full s.rxCap hwRx [] s.rx_intr_enabled 0
    (by simp) (by simp [hlen])
  simp only [List.nil_append, List.length_nil, Nat.sub_zero, Nat.zero_add] at hdr
  simp only [AsyncSerial.dispatchRx, hdata]
  simp only [hdr]
  refine ⟨?_, ?_, ?_, ?_⟩ <;> first | trivial | (split <;> simp)

/-! ## Claim theorems -/

/-- Claim C1, counterexample: the claim states that every lock acquisition
`AsyncSerial::interrupt_handler` performs on the rx producer end and the
tx consumer end is non-blocking and can never wait.  In the concrete
execution below (one received-data-available cause, then one
tx-holding-empty cause, then no-interrupt-pending) the handler acquires
`rx_pro` and `tx_con` with the blocking `spin::Mutex::lock()`, which
spins until the lock is free — so acquisitions on those ends are blocking
acquisitions, not non-blocking attempts. -/
theorem C1_blocking_lock_counterexample :
    (LockId.rxPro, LockMode.blocking) ∈
      (AsyncSerial.interrupt_handler exAsyncC1 [65] true true
        [IID.RECEIVED_DATA_AVAILABLE, IID.THR_EMPTY, IID.NO_INTERRUPT_PENDING]).2.2.2 ∧
    (LockId.txCon, LockMode.blocking) ∈
      (AsyncSerial.interrupt_handler exAsyncC1 [65] true true
        [IID.RECEIVED_DATA_AVAILABLE, IID.THR_EMPTY, IID.NO_INTERRUPT_PENDING]).2.2.2 := by
  decide

/-- Claim C1, amended: in every execution of
`AsyncSerial::interrupt_handler`, the rx producer end and the tx consumer
end are acquired with the blocking `lock()` (which waits under
contention), the waker slots are acquired with the non-blocking
`try_lock()` that fails immediately under contention, and the task-side
ends (`rx_con`, `tx_pro`) are never acquired from interrupt context. -/
theorem C1_lock_modes_amended (s : AsyncSerial) (hwRx : List Nat) (rOk wOk : Bool)
    (pending : List IID) :
    ((AsyncSerial.interrupt_handler s hwRx rOk wOk pending).2.2.2).all interruptLockOk = true :=
  asyncHandler_events_ok pending s hwRx rOk wOk

/-- Claim C2, code evaluation at the failing input: with a buffer of
length 1 and exactly one byte delivered into the rx ring, the read
future's poll drains the byte into the buffer but returns pending, not
ready; it returns ready only when a second byte can be dequeued, and that
byte is discarded (the ring is left empty and the byte is stored
nowhere). -/
theorem C2_read_poll_eval :
    SerialReadFuture.poll [65] [0] 0 true = ([], [65], 1, true, Poll.pending) ∧
    SerialReadFuture.poll [65, 66] [0] 0 false = ([], [65], 1, false, Poll.ready) := by
  decide

/-- Claim C3: starting from an empty rx ring of capacity `rxCap`, if the
hardware delivers `rxCap + 1` bytes within one invocation of the async
handler's receive branch, exactly `rxCap` bytes are enqueued (the first
`rxCap`, in delivery order, uncorrupted), the rx interrupt-enable flag is
false afterwards, the extra byte has been consumed from the hardware and
dropped, and `rx_count` grows by exactly `rxCap`. -/
theorem C3_rx_overflow (s : AsyncSerial) (hwRx : List Nat) (rOk wOk : Bool)
    (hdata : s.rxData = []) (hlen : hwRx.length = s.rxCap + 1) :
    (AsyncSerial.interrupt_handler s hwRx rOk wOk
        [IID.RECEIVED_DATA_AVAILABLE, IID.NO_INTERRUPT_PENDING]).1.rxData =
      List.take s.rxCap hwRx ∧
    (AsyncSerial.interrupt_handler s hwRx rOk wOk
        [IID.RECEIVED_DATA_AVAILABLE, IID.NO_INTERRUPT_PENDING]).1.rx_intr_enabled = false ∧
    (AsyncSerial.interrupt_handler s hwRx rOk wOk
        [IID.RECEIVED_DATA_AVAILABLE, IID.NO_INTERRUPT_PENDING]).2.1 = [] ∧
    (AsyncSerial.interrupt_handler s hwRx rOk wOk
        [IID.RECEIVED_DATA_AVAILABLE, IID.NO_INTERRUPT_PENDING]).1.rx_count =
      s.rx_count + s.rxCap := by
  have hd := dispatchRx_full { s with intr_count := s.intr_count + 1 } hwRx rOk hdata hlen
  rcases hdr : AsyncSerial.dispatchRx { s with intr_count := s.intr_count + 1 } hwRx rOk with
    ⟨s1, hw1, ev1⟩
  rw [hdr] at hd
  simp only [AsyncSerial.interrupt_handler, hdr]
  simp
  exact ⟨hd.1, hd.2.1, hd.2.2.1, hd.2.2.2⟩

/-- Witness for C3 at a concrete input: capacity-2 empty ring, three bytes
delivered. -/
theorem C3_rx_overflow_witness :
    (AsyncSerial.interrupt_handler exAsyncC3 [7, 8, 9] true true
        [IID.RECEIVED_DATA_AVAILABLE, IID.NO_INTERRUPT_PENDING]).1.rxData = [7, 8] ∧
    (AsyncSerial.interrupt_handler exAsyncC3 [7, 8, 9] true true
        [IID.RECEIVED_DATA_AVAILABLE, IID.NO_INTERRUPT_PENDING]).1.rx_intr_enabled = false ∧
    (AsyncSerial.interrupt_handler exAsyncC3 [7, 8, 9] true true
        [IID.RECEIVED_DATA_AVAILABLE, IID.NO_INTERRUPT_PENDING]).2.1 = [] := by
  have h := C3_rx_overflow exAsyncC3 [7, 8, 9] true true rfl rfl
  exact ⟨by simpa using h.1, h.2.1, h.2.2.1⟩

/-- Claim C4, counterexample: the claimed iff invariant fails at both
ends.  At construction, the rx queue is empty (so there is room) but
`rx_intr_enabled` is false, contradicting "rx flag true iff the rx queue
has room".  And starting from `exBufC4` — a state satisfying both iffs,
with exactly `FIFO_DEPTH` bytes queued for transmit — one run of the
interrupt handler on a tx-holding-empty cause drains the queue empty while
leaving `tx_intr_enabled` true, contradicting "tx flag true iff the tx
queue is non-empty" after one full-fuel iteration of the tx branch. -/
theorem C4_intr_flag_iff_counterexample :
    (BufferedSerial.new.rx_buffer.length < DEFAULT_RX_BUFFER_SIZE ∧
      BufferedSerial.new.rx_intr_enabled = false) ∧
    (exBufC4.tx_intr_enabled = true ∧ exBufC4.tx_buffer ≠ [] ∧
      exBufC4.rx_intr_enabled = true ∧ exBufC4.rx_buffer.length < DEFAULT_RX_BUFFER_SIZE) ∧
    ((BufferedSerial.interrupt_handler exBufC4 []
        [IID.THR_EMPTY, IID.NO_INTERRUPT_PENDING]).1.tx_buffer = [] ∧
      (BufferedSerial.interrupt_handler exBufC4 []
        [IID.THR_EMPTY, IID.NO_INTERRUPT_PENDING]).1.tx_intr_enabled = true) := by
  decide

/-- Claim C4, amended: what construction establishes and every operation
(`try_write`, `try_read`, every run of the interrupt handler) preserves is
the one-directional invariant "whenever the tx queue is non-empty,
`tx_intr_enabled` is true".  The converse direction fails after a
tx-holding-empty drain of exactly `FIFO_DEPTH` bytes, and the rx iff fails
already at construction, as the counterexample shows. -/
theorem C4_tx_flag_invariant_amended :
    txInv BufferedSerial.new ∧
    (∀ (s : BufferedSerial) (w : Nat), txInv s → txInv (BufferedSerial.try_write s w).1) ∧
    (∀ (s : BufferedSerial), txInv s → txInv (BufferedSerial.try_read s).1) ∧
    (∀ (s : BufferedSerial) (hwRx : List Nat) (pending : List IID),
      txInv s → txInv (BufferedSerial.interrupt_handler s hwRx pending).1) :=
  ⟨fun hne => absurd rfl hne,
   fun s w h => try_write_txInv s w h,
   fun s h => try_read_txInv s h,
   fun s hwRx pending h => handler_txInv pending s hwRx h⟩

/-- Witness for C4's amended invariant at a concrete input. -/
theorem C4_tx_flag_invariant_witness :
    txInv (BufferedSerial.try_write BufferedSerial.new 65).1 :=
  C4_tx_flag_invariant_amended.2.1 BufferedSerial.new 65 (fun hne => absurd rfl hne)

/-- Claim C5, code evaluation: the FCR value each `hardware_init` writes.
`PollingSerial` and `AsyncSerial` do enable the FIFO, reset both halves
and set the claimed trigger levels; `BufferedSerial` resets both halves
and selects the one-character trigger but writes the FIFO-enable bit as
zero (`fifoe().clear_bit()` at line 183, directly under the source's own
"Enable FIFO" comment), so it disables the hardware FIFO. -/
theorem C5_fcr_eval :
    BufferedSerial.hardware_init_fcr.fifoe = false ∧
    BufferedSerial.hardware_init_fcr.rfifor = true ∧
    BufferedSerial.hardware_init_fcr.xfifor = true ∧
    BufferedSerial.hardware_init_fcr.rt = RxTrigger.one_character ∧
    PollingSerial.hardware_init_fcr =
      { fifoe := true, rfifor := true, xfifor := true, rt := RxTrigger.two_less_than_full } ∧
    AsyncSerial.hardware_init_fcr =
      { fifoe := true, rfifor := true, xfifor := true, rt := RxTrigger.half_full } := by
  decide

/-- Claim C6: `set_divisor` computes `divisor = clock / (16 * baudRate)`
with integer floor and writes the divisor's low byte to the
divisor-latch-low register and then its high byte to the
divisor-latch-high register; the concrete pair (100 MHz, 115200 baud)
yields divisor 54; and for any divisor below 65536 the low/high byte split
reconstructs the divisor losslessly. -/
theorem C6_set_divisor (clock baud_rate : Nat) :
    set_divisor clock baud_rate =
      [(DlReg.dll, clock / (16 * baud_rate) % 256),
       (DlReg.dlh, clock / (16 * baud_rate) / 256 % 256)] ∧
    100000000 / (16 * 115200) = 54 ∧
    (∀ d : Nat, d < 65536 →
      (d &&& 0b11111111) + 256 * ((d >>> 8) &&& 0b11111111) = d) := by
  refine ⟨?_, by norm_num, fun d hd => ?_⟩
  · simp [set_divisor, land_255_eq_mod, shiftRight_8_eq_div]
  · rw [land_255_eq_mod, shiftRight_8_eq_div, land_255_eq_mod]
    omega

/-- Witness for C6 at the concrete clock and baud rate from the source. -/
theorem C6_set_divisor_witness :
    set_divisor 100000000 115200 = [(DlReg.dll, 54), (DlReg.dlh, 0)] ∧
    (54 &&& 0b11111111) + 256 * ((54 >>> 8) &&& 0b11111111) = 54 := by
  have h := C6_set_divisor 100000000 115200
  refine ⟨?_, h.2.2 54 (by decide)⟩
  rw [h.1]

/-- Claim C7: `BufferedSerial::try_write` — when the tx queue is below
`DEFAULT_TX_BUFFER_SIZE`, the byte is appended at the back, the call
returns success and the tx interrupt is enabled afterwards (it is enabled
here exactly when it was disabled); when the queue is at (or beyond)
capacity, the call fails with would-block and the whole state is
unchanged. -/
theorem C7_try_write (s : BufferedSerial) (w : Nat) :
    (s.tx_buffer.length < DEFAULT_TX_BUFFER_SIZE →
      (BufferedSerial.try_write s w).2 = NbResult.ok ∧
      (BufferedSerial.try_write s w).1.tx_buffer = s.tx_buffer ++ [w] ∧
      (BufferedSerial.try_write s w).1.tx_intr_enabled = true) ∧
    (DEFAULT_TX_BUFFER_SIZE ≤ s.tx_buffer.length →
      (BufferedSerial.try_write s w).2 = NbResult.wouldBlock ∧
      (BufferedSerial.try_write s w).1 = s) := by
  constructor
  · intro h
    simp only [BufferedSerial.try_write, if_pos h]
    by_cases hb : s.tx_intr_enabled = true
    · simp [hb, BufferedSerial.enable_threi]
    · simp [hb, BufferedSerial.enable_threi]
  · intro h
    have hn : ¬ s.tx_buffer.length < DEFAULT_TX_BUFFER_SIZE := by omega
    simp [BufferedSerial.try_write, hn]

/-- Witness for C7 at a concrete input: writing to a fresh driver. -/
theorem C7_try_write_witness :
    (BufferedSerial.try_write BufferedSerial.new 65).2 = NbResult.ok ∧
    (BufferedSerial.try_write BufferedSerial.new 65).1.tx_buffer = [65] ∧
    (BufferedSerial.try_write BufferedSerial.new 65).1.tx_intr_enabled = true := by
  have h := (C7_try_write BufferedSerial.new 65).1 (by decide)
  exact ⟨h.1, by simpa using h.2.1, h.2.2⟩

/-- Claim C8: on a finite pending-cause sequence ending in the
distinguished no-interrupt-pending value (and containing it nowhere
earlier), both drivers' interrupt handlers terminate — they are total
functions in this embedding, structurally recursive on the sequence —
process each occurrence exactly once (each processed cause contributes
exactly its enter/exit pair to the trace, in sequence order, and
`intr_count` grows by exactly the number of processed causes), and
bracket each processed cause with one trace-enter and one trace-exit
event. -/
theorem C8_handler_trace (causes : List IID) (s : BufferedSerial) (hwRx : List Nat)
    (t : AsyncSerial) (hwRx2 : List Nat) (rOk wOk : Bool)
    (h : IID.NO_INTERRUPT_PENDING ∉ causes) :
    (BufferedSerial.interrupt_handler s hwRx
        (causes ++ [IID.NO_INTERRUPT_PENDING])).2.2.2 = bracketTrace causes ∧
    (BufferedSerial.interrupt_handler s hwRx
        (causes ++ [IID.NO_INTERRUPT_PENDING])).1.intr_count = s.intr_count + causes.length ∧
    (AsyncSerial.interrupt_handler t hwRx2 rOk wOk
        (causes ++ [IID.NO_INTERRUPT_PENDING])).2.2.1 = bracketTrace causes ∧
    (AsyncSerial.interrupt_handler t hwRx2 rOk wOk
        (causes ++ [IID.NO_INTERRUPT_PENDING])).1.intr_count = t.intr_count + causes.length :=
  ⟨(bufHandler_trace causes s hwRx h).1, (bufHandler_trace causes s hwRx h).2,
   (asyncHandler_trace causes t hwRx2 rOk wOk h).1,
   (asyncHandler_trace causes t hwRx2 rOk wOk h).2⟩

/-- Witness for C8 at a concrete input: a receive cause followed by a
transmit cause, then no-interrupt-pending. -/
theorem C8_handler_trace_witness :
    (BufferedSerial.interrupt_handler BufferedSerial.new [65]
        [IID.RECEIVED_DATA_AVAILABLE, IID.THR_EMPTY, IID.NO_INTERRUPT_PENDING]).2.2.2 =
      [TraceEvent.enter 4, TraceEvent.exit 4, TraceEvent.enter 2, TraceEvent.exit 2] ∧
    (AsyncSerial.interrupt_handler exAsyncC8 [65] true true
        [IID.RECEIVED_DATA_AVAILABLE, IID.THR_EMPTY, IID.NO_INTERRUPT_PENDING]).2.2.1 =
      [TraceEvent.enter 4, TraceEvent.exit 4, TraceEvent.enter 2, TraceEvent.exit 2] := by
  have h := C8_handler_trace [IID.RECEIVED_DATA_AVAILABLE, IID.THR_EMPTY]
    BufferedSerial.new [65] exAsyncC8 [65] true true (by decide)
  simp only [List.cons_append, List.nil_append] at h
  exact ⟨by rw [h.1]; decide, by rw [h.2.2.1]; decide⟩

/-- Claim C9: polling `AsyncSerial`'s write future with an empty buffer
never completes with zero bytes transferred — the very first loop
iteration indexes `buf[0]` on an empty slice and panics (modelled as
`none`), for every ring capacity and ring content, so a non-empty buffer
is an unstated precondition; with a non-empty buffer the poll behaves
normally, e.g. completing immediately on a one-byte buffer with room in
the ring. -/
theorem C9_write_empty_buffer :
    (∀ (cap : Nat) (tx : List Nat) (txIntr : Bool),
        SerialWriteFuture.poll cap tx [] txIntr = none) ∧
    SerialWriteFuture.poll 8 [] [65] false = some ([65], [], false, Poll.ready) := by
  exact ⟨fun cap tx txIntr => rfl, by decide⟩

/-- Claim C10: base-address resolution is total on both boards.  Each
interrupt line listed in the 4-entry table maps to
`SERIAL_BASE_ADDRESS + index * SERIAL_ADDRESS_STRIDE` for that entry's
index, and every unlisted interrupt line silently falls back to index 0,
returning `SERIAL_BASE_ADDRESS` itself. -/
theorem C10_base_addr (irq : Nat) :
    QemuBoard.get_base_addr_from_irq 12 =
      QemuBoard.SERIAL_BASE_ADDRESS + 0 * QemuBoard.SERIAL_ADDRESS_STRIDE ∧
    QemuBoard.get_base_addr_from_irq 13 =
      QemuBoard.SERIAL_BASE_ADDRESS + 1 * QemuBoard.SERIAL_ADDRESS_STRIDE ∧
    QemuBoard.get_base_addr_from_irq 14 =
      QemuBoard.SERIAL_BASE_ADDRESS + 2 * QemuBoard.SERIAL_ADDRESS_STRIDE ∧
    QemuBoard.get_base_addr_from_irq 15 =
      QemuBoard.SERIAL_BASE_ADDRESS + 3 * QemuBoard.SERIAL_ADDRESS_STRIDE ∧
    (irq ∉ ([12, 13, 14, 15] : List Nat) →
      QemuBoard.get_base_addr_from_irq irq = QemuBoard.SERIAL_BASE_ADDRESS) ∧
    LrvBoard.get_base_addr_from_irq 4 =
      LrvBoard.SERIAL_BASE_ADDRESS + 0 * LrvBoard.SERIAL_ADDRESS_STRIDE ∧
    LrvBoard.get_base_addr_from_irq 5 =
      LrvBoard.SERIAL_BASE_ADDRESS + 1 * LrvBoard.SERIAL_ADDRESS_STRIDE ∧
    LrvBoard.get_base_addr_from_irq 6 =
      LrvBoard.SERIAL_BASE_ADDRESS + 2 * LrvBoard.SERIAL_ADDRESS_STRIDE ∧
    LrvBoard.get_base_addr_from_irq 7 =
      LrvBoard.SERIAL_BASE_ADDRESS + 3 * LrvBoard.SERIAL_ADDRESS_STRIDE ∧
    (irq ∉ ([4, 5, 6, 7] : List Nat) →
      LrvBoard.get_base_addr_from_irq irq = LrvBoard.SERIAL_BASE_ADDRESS) := by
  refine ⟨by decide, by decide, by decide, by decide, fun h => ?_,
    by decide, by decide, by decide, by decide, fun h => ?_⟩
  · simp only [List.mem_cons, List.not_mem_nil, or_false, not_or] at h
    unfold QemuBoard.get_base_addr_from_irq QemuBoard.irq_to_serial_id
    split <;> simp_all
  · simp only [List.mem_cons, List.not_mem_nil, or_false, not_or] at h
    unfold LrvBoard.get_base_addr_from_irq LrvBoard.irq_to_serial_id
    split <;> simp_all

/-- Witness for C10's fallback clauses at a concrete unlisted interrupt
line. -/
theorem C10_base_addr_witness :
    QemuBoard.get_base_addr_from_irq 99 = QemuBoard.SERIAL_BASE_ADDRESS ∧
    LrvBoard.get_base_addr_from_irq 99 = LrvBoard.SERIAL_BASE_ADDRESS := by
  have h := C10_base_addr 99
  exact ⟨h.2.2.2.2.1 (by decide), h.2.2.2.2.2.2.2.2.2 (by decide)⟩

end UserUart
